import Mathlib

set_option maxHeartbeats 1000000

/-!
Verification development for the API gateway core of the New-Feed
microservices repository: the distributed rate limiter
(`api-gateway/src/middleware/rateLimiter.js`), its rule table
(`api-gateway/src/config/rateLimitRules.js`), the circuit-breaker proxy
wrapper (`api-gateway/src/middleware/circuitBreaker.js` together with
`config/circuitBreaker.js`), and the content-based GraphQL routing of the
gateway entry point.

The JavaScript source is shallowly embedded: JS numbers that hold
millisecond timestamps and window lengths are modelled as `Int`
(timestamp arithmetic can go negative mid-expression), counts as `Nat`,
the Redis sorted set behind one `rate_limit:{ip}:{path}` key as a
`List Entry`, and fallible remote-store interaction as an explicit
failure-point parameter.
-/

/-! ## JS string primitives

`jsIncludes s sub` models `s.includes(sub)` (contiguous substring test) and
`jsStartsWith s p` models `s.startsWith(p)`, both via explicit recursion on
the character lists. -/

def charsMatchAt : List Char → List Char → Bool
  | [], _ => true
  | _ :: _, [] => false
  | p :: ps, c :: cs => p == c && charsMatchAt ps cs

def charsHasSub : List Char → List Char → Bool
  | needle, [] => needle.isEmpty
  | needle, c :: cs => charsMatchAt needle (c :: cs) || charsHasSub needle cs

def jsIncludes (s sub : String) : Bool :=
  charsHasSub sub.toList s.toList

def jsStartsWith (s p : String) : Bool :=
  charsMatchAt p.toList s.toList

/-! `jsToLower` models `s.toLowerCase()` (character-wise ASCII lowering,
by structural recursion so that concrete instances evaluate). -/

/-! ## JS ceiling division

`jsCeilDiv a b` models `Math.ceil(a / b)` for integer-valued JS numbers
and a positive divisor: the ceiling of the real quotient, expressed with
floor division (`Int.fdiv`). -/

def jsToLower (s : String) : String :=
  String.mk (s.toList.map Char.toLower)

def jsCeilDiv (a b : Int) : Int := -((-a).fdiv b)

theorem jsCeilDiv_pos (a b : Int) (ha : 1 ≤ a) (hb : 0 < b) : 1 ≤ jsCeilDiv a b := by
  have h : (-a).fdiv b < 0 := Int.fdiv_neg' (by omega) hb
  unfold jsCeilDiv
  omega

/-! ## Redis sorted-set model

One sorted set (the value stored under a single `rate_limit:{ip}:{path}`
key): a list of members with integer scores.  `zadd` updates the score of
an existing member in place or appends a fresh one;
`zremrangebyscore lo hi` drops every member whose score lies in
`[lo, hi]`; `zrem` drops a member by name; `zrangeHead` returns an entry of
least score, i.e. the first element of `ZRANGE key 0 0 WITHSCORES`.  Among
equal scores Redis orders members lexicographically; the middleware reads
only the score of this entry, so the tie-break among equal scores is
unobservable and is modelled as first-in-list. -/

structure Entry where
  member : String
  score : Int
deriving DecidableEq, Repr

def zadd (s : List Entry) (score : Int) (member : String) : List Entry :=
  if s.any (fun e => e.member == member) then
    s.map (fun e => if e.member == member then ⟨e.member, score⟩ else e)
  else
    s ++ [⟨member, score⟩]

def zremrangebyscore (s : List Entry) (lo hi : Int) : List Entry :=
  s.filter (fun e => !(decide (lo ≤ e.score ∧ e.score ≤ hi)))

def zrem (s : List Entry) (member : String) : List Entry :=
  s.filter (fun e => !(e.member == member))

def zrangeHead : List Entry → Option Entry
  | [] => none
  | e :: rest =>
    match zrangeHead rest with
    | none => some e
    | some m => if m.score < e.score then some m else some e

/-! ## Rate limiter (`api-gateway/src/middleware/rateLimiter.js`)

`rateLimitEval` embeds the body of the middleware returned by
`createRateLimiter()` for one request, on the sorted set stored under the
request's `rate_limit:{ip}:{path}` key:

* `rule` is the resolved `{windowMs, maxRequests, message}` rule;
* `now` is `Date.now()`;
* the inserted member is the template string `` `${now}-${Math.random()}` ``;
  the two `Math.random()` calls of the source (one at `zadd`, one at the
  rejection `zrem`) are the parameters `nonce1` and `nonce2`;
* the result carries the outcome (`next()` or a 429 JSON body), the
  response headers set via `res.set`, and the final stored set.

The `expire` pipeline step only assigns the key TTL and does not change
the set contents, so it is not represented in the stored-set state. -/

structure RateLimitRule where
  windowMs : Int
  maxRequests : Nat
  message : String
deriving DecidableEq, Repr

structure RejectBody where
  success : Bool
  error : String
  message : String
  retryAfter : Int
deriving DecidableEq, Repr

inductive RLOutcome where
  | callNext
  | reject429 (body : RejectBody)
deriving DecidableEq, Repr

structure RLHeaders where
  limit : Option Nat
  remaining : Option Int
  reset : Option Int
  retryAfter : Option Int
deriving DecidableEq, Repr

def emptyHeaders : RLHeaders := ⟨none, none, none, none⟩

structure RLResult where
  outcome : RLOutcome
  headers : RLHeaders
  state : List Entry
deriving DecidableEq, Repr

def memberString (now : Int) (nonce : String) : String :=
  toString now ++ "-" ++ nonce

def rateLimitEval (rule : RateLimitRule) (now : Int) (nonce1 nonce2 : String)
    (s : List Entry) : RLResult :=
  let windowStart := now - rule.windowMs
  let s1 := zremrangebyscore s 0 windowStart
  let currentRequests := s1.length
  let s2 := zadd s1 now (memberString now nonce1)
  if currentRequests ≥ rule.maxRequests then
    let retryAfter :=
      match zrangeHead s2 with
      | some oldest => jsCeilDiv (oldest.score + rule.windowMs - now) 1000
      | none => jsCeilDiv rule.windowMs 1000
    let s3 := zrem s2 (memberString now nonce2)
    { outcome := .reject429 ⟨false, "RATE_LIMIT_EXCEEDED", rule.message, retryAfter⟩,
      headers := ⟨some rule.maxRequests, some 0, some (now + rule.windowMs), some retryAfter⟩,
      state := s3 }
  else
    let remaining : Int := (rule.maxRequests : Int) - (currentRequests : Int) - 1
    { outcome := .callNext,
      headers := ⟨some rule.maxRequests, some (max 0 remaining), some (now + rule.windowMs), none⟩,
      state := s2 }

/-! The whole middleware body runs inside `try { ... } catch`: if any remote
store operation throws, the `catch` block logs and calls `next()` without
having set any rate-limit header.  `StoreFail` names the three points at
which an `await` on the store can throw: the pipelined
prune/count/insert/expire round-trip, the `zrange` of the rejection branch,
and the roll-back `zrem` of the rejection branch.  The latter two can only
throw when the rejection branch actually executes them. -/

inductive StoreFail where
  | atPipeline
  | atZrange
  | atZrem
deriving DecidableEq, Repr

def rateLimiterHandle (rule : RateLimitRule) (now : Int) (nonce1 nonce2 : String)
    (s : List Entry) (fail : Option StoreFail) : RLOutcome × RLHeaders :=
  match fail with
  | some .atPipeline => (.callNext, emptyHeaders)
  | _ =>
    let r := rateLimitEval rule now nonce1 nonce2 s
    match r.outcome with
    | .callNext => (r.outcome, r.headers)
    | .reject429 b =>
      if fail.isSome then (.callNext, emptyHeaders)
      else (.reject429 b, r.headers)

/-! ## Keyed store, `resetRateLimit` and `getRateLimitStatus`

The full remote store maps each key to a sorted set.  `resetRateLimit`
with a concrete path deletes the single key `rate_limit:{ip}:{path}`;
`getRateLimitStatus` re-runs the prune against the stored set and reports
utilization. -/

def rlKey (ip path : String) : String := "rate_limit:" ++ ip ++ ":" ++ path

def RLStore := String → List Entry

def resetRateLimitSpecific (st : RLStore) (ip path : String) : RLStore :=
  fun k => if k = rlKey ip path then [] else st k

def rateLimitEvalAt (st : RLStore) (ip path : String) (rule : RateLimitRule)
    (now : Int) (nonce1 nonce2 : String) : RLResult :=
  rateLimitEval rule now nonce1 nonce2 (st (rlKey ip path))

structure RLStatus where
  limit : Nat
  current : Nat
  remaining : Int
  resetAt : Int
deriving DecidableEq, Repr

def getRateLimitStatusEval (rule : RateLimitRule) (now : Int) (s : List Entry) :
    RLStatus × List Entry :=
  let s1 := zremrangebyscore s 0 (now - rule.windowMs)
  let currentRequests := s1.length
  (⟨rule.maxRequests, currentRequests,
    max 0 ((rule.maxRequests : Int) - (currentRequests : Int)), now + rule.windowMs⟩, s1)

/-! ## Rule table (`api-gateway/src/config/rateLimitRules.js`)

The `rateLimitRules` export is a plain JS object of nested objects, and
`getRateLimitRule` indexes it with arbitrary path segments, so the lookup
is embedded over a small JS-value type: `vUndef` is `undefined`;
`vObj` is an object literal with its own properties; bracket access on an
object literal first consults the own properties and then the
`Object.prototype` chain, whose member names are all bound to built-in
functions (or, for `__proto__`, to the prototype object itself) — every
one of them truthy.  These inherited values are modelled as the opaque
truthy value `vProto name`.  The own properties of the inherited
built-ins themselves (`name`, `length`, `call`, ...) are outside the
modelled fragment — `getField` on a `vProto` yields `vUndef` — which is
unobservable for the lookup semantics proved here: the lookup only
returns such a value (already non-`undefined`) or falls back to concrete
default rules.  `JVal.truthy` is JS truthiness for the values that occur
here. -/

inductive JVal where
  | vUndef
  | vNum (n : Int)
  | vStr (s : String)
  | vObj (fields : List (String × JVal))
  | vProto (name : String)

/-- The own property keys of `Object.prototype`: bracket access with one
of these names on any plain object literal finds an inherited (truthy)
member when no own property shadows it. -/
def protoNames : List String :=
  ["constructor", "hasOwnProperty", "isPrototypeOf", "propertyIsEnumerable",
   "toLocaleString", "toString", "valueOf", "__defineGetter__",
   "__defineSetter__", "__lookupGetter__", "__lookupSetter__", "__proto__"]

def lookupField : List (String × JVal) → String → JVal
  | [], _ => .vUndef
  | (k2, v) :: rest, k => if k2 = k then v else lookupField rest k

def JVal.getField : JVal → String → JVal
  | .vObj fs, k =>
    match lookupField fs k with
    | .vUndef => if protoNames.contains k then .vProto k else .vUndef
    | v => v
  | _, _ => .vUndef

def JVal.truthy : JVal → Bool
  | .vUndef => false
  | .vNum n => !(n == 0)
  | .vStr s => !(s == "")
  | .vObj _ => true
  | .vProto _ => true

def mkRule (windowMs maxRequests : Int) (message : String) : JVal :=
  .vObj [("windowMs", .vNum windowMs), ("maxRequests", .vNum maxRequests),
         ("message", .vStr message)]

def authRuleFields : List (String × JVal) :=
  [ ("login", mkRule 900000 5
      "Quá nhiều lần đăng nhập thất bại. Vui lòng thử lại sau 15 phút."),
    ("register", mkRule 3600000 3
      "Quá nhiều lần đăng ký. Vui lòng thử lại sau 1 giờ."),
    ("refresh", mkRule 300000 10
      "Quá nhiều lần refresh token. Vui lòng thử lại sau."),
    ("default", mkRule 900000 20
      "Quá nhiều requests đến auth service. Vui lòng thử lại sau.") ]

def postsRuleFields : List (String × JVal) :=
  [ ("create", mkRule 3600000 10
      "Bạn đã tạo quá nhiều bài viết. Vui lòng thử lại sau 1 giờ."),
    ("list", mkRule 60000 30
      "Quá nhiều requests. Vui lòng thử lại sau."),
    ("default", mkRule 900000 50
      "Quá nhiều requests đến post service. Vui lòng thử lại sau.") ]

def commentsRuleFields : List (String × JVal) :=
  [ ("create", mkRule 900000 30
      "Bạn đã comment quá nhiều. Vui lòng thử lại sau."),
    ("default", mkRule 900000 60
      "Quá nhiều requests đến comment service. Vui lòng thử lại sau.") ]

def mediaRuleFields : List (String × JVal) :=
  [ ("upload", mkRule 3600000 20
      "Bạn đã upload quá nhiều file. Vui lòng thử lại sau 1 giờ."),
    ("default", mkRule 900000 100
      "Quá nhiều requests đến media service. Vui lòng thử lại sau.") ]

def rateLimitRulesFields : List (String × JVal) :=
  [ ("default", mkRule 900000 100 "Quá nhiều requests. Vui lòng thử lại sau."),
    ("auth", .vObj authRuleFields),
    ("posts", .vObj postsRuleFields),
    ("comments", .vObj commentsRuleFields),
    ("media", .vObj mediaRuleFields) ]

def rateLimitRules : JVal := .vObj rateLimitRulesFields

/-! `getRateLimitRule(path)` splits the path on `/`, filters out the empty
segments (`.filter(Boolean)`), and then inspects `parts[1]` (the service)
and `parts[2]` (the action, possibly `undefined`).  The body after the
split is factored out as `getRateLimitRuleParts`. -/

def getRateLimitRuleParts (parts : List String) : JVal :=
  if parts.length < 2 then rateLimitRules.getField "default"
  else
    let service := parts.getD 1 ""
    if !(rateLimitRules.getField service).truthy then rateLimitRules.getField "default"
    else
      let serviceRules := rateLimitRules.getField service
      match parts.get? 2 with
      | some action =>
        if (serviceRules.getField action).truthy then serviceRules.getField action
        else if (serviceRules.getField "default").truthy then serviceRules.getField "default"
        else rateLimitRules.getField "default"
      | none =>
        if (serviceRules.getField "default").truthy then serviceRules.getField "default"
        else rateLimitRules.getField "default"

/-- JS `path.split("/")` for the one-character separator, by structural
recursion over the characters (e.g. `"/a/b"` ↦ `["", "a", "b"]` and
`""` ↦ `[""]`). -/
def splitChars (sep : Char) : List Char → List (List Char)
  | [] => [[]]
  | c :: cs =>
    let r := splitChars sep cs
    if c == sep then [] :: r
    else
      match r with
      | [] => [[c]]
      | h :: t => (c :: h) :: t

def jsSplitSlash (s : String) : List String :=
  (splitChars '/' s.toList).map String.mk

def getRateLimitRule (path : String) : JVal :=
  getRateLimitRuleParts ((jsSplitSlash path).filter (fun p => !(p == "")))

/-- A value is a full rate-limit rule object when it carries numeric
`windowMs` and `maxRequests` own properties and a string `message`. -/
def isRuleJV : JVal → Bool
  | .vObj fs =>
    (match lookupField fs "windowMs" with | .vNum _ => true | _ => false)
    && (match lookupField fs "maxRequests" with | .vNum _ => true | _ => false)
    && (match lookupField fs "message" with | .vStr _ => true | _ => false)
  | _ => false

/-- The structured login rule, `rateLimitRules.auth.login` of the config. -/
def loginRule : RateLimitRule :=
  ⟨900000, 5, "Quá nhiều lần đăng nhập thất bại. Vui lòng thử lại sau 15 phút."⟩

def ruleToJVal (r : RateLimitRule) : JVal :=
  mkRule r.windowMs r.maxRequests r.message

/-! ## Circuit breaker proxy wrapper
(`api-gateway/src/middleware/circuitBreaker.js`, `createCircuitBreakerProxy`,
and `api-gateway/src/config/circuitBreaker.js`, `createFallbackResponse`)

The Express-level wrapper returned by `createCircuitBreakerProxy` decides,
before any network activity, whether to hand the request to the
`http-proxy-middleware` instance (the only place a network attempt can
originate) or to answer immediately.  The decision reads the breaker state
(`breaker.opened`), the upgrade header, and `res.headersSent`.  The
success-sampling it installs around `res.end` only fires synthetic probe
traffic after a response and does not affect this decision, so it is not
part of the embedded result. -/

structure FallbackBody where
  success : Bool
  error : String
  message : String
  service : String
  timestamp : String
deriving DecidableEq, Repr

def createFallbackResponse (serviceName timestamp : String) : FallbackBody :=
  ⟨false, "SERVICE_UNAVAILABLE",
   serviceName ++ " is temporarily unavailable. Please try again later.",
   serviceName, timestamp⟩

inductive ProxyStep where
  | forwardToProxy
  | respond (status : Nat) (body : FallbackBody)
  | noResponse
deriving DecidableEq, Repr

def circuitBreakerGate (breakerOpened isWebSocket headersSent : Bool)
    (serviceName timestamp : String) : ProxyStep :=
  if isWebSocket then .forwardToProxy
  else if breakerOpened then
    if !headersSent then .respond 503 (createFallbackResponse serviceName timestamp)
    else .noResponse
  else .forwardToProxy

/-! ## GraphQL content-based routing (gateway entry point)

The `/graphql` route chain first lets WebSocket upgrade requests through to
the comment-service WS proxy, and otherwise sniffs
`req.body?.query || ""` and `req.body?.operationName || ""` for
comment-domain keywords; matches go to the comment upstream, everything
else to the post upstream.  The server-level `upgrade` listener routes
`/notifications/socket.io` sockets to the notification proxy and `/graphql`
WebSocket upgrades to the comment-service WS proxy. -/

inductive UpstreamTarget where
  | commentWs
  | commentHttp
  | postHttp
  | notificationWs
deriving DecidableEq, Repr

def commentMarkers : List String :=
  ["subscription", "commentAdded", "commentDeleted", "commentUpdated",
   "getComments", "createComment", "deleteComment"]

def graphqlIsCommentBound (query operationName : String) : Bool :=
  commentMarkers.any (fun m => jsIncludes query m)
    || jsIncludes (jsToLower operationName) "comment"

def routeGraphQL (isWebSocket : Bool) (query operationName : String) : UpstreamTarget :=
  if isWebSocket then .commentWs
  else if graphqlIsCommentBound query operationName then .commentHttp
  else .postHttp

def upgradeRoute (url upgradeHeader : String) : Option UpstreamTarget :=
  if jsStartsWith url "/notifications/socket.io" then some .notificationWs
  else if jsStartsWith url "/graphql" && jsToLower upgradeHeader == "websocket" then
    some .commentWs
  else none

/-! The operations each GraphQL upstream actually defines.  The comment
service schema (`comment-service/src/graphql/schema.js`) declares exactly
the query `getComments`, the mutations `createComment` and `deleteComment`,
and the subscriptions `commentAdded`, `commentUpdated`, `commentDeleted`.
The post upstream operations (`getPosts`, `createPost`, `deletePost`) are
taken from the repository API documentation, the post service GraphQL
schema itself being outside the gateway sources. -/

def commentOperations : List String :=
  ["getComments", "createComment", "deleteComment",
   "commentAdded", "commentUpdated", "commentDeleted"]

def postOperations : List String :=
  ["getPosts", "createPost", "deletePost"]

/-! ## Supporting lemmas -/

theorem zrangeHead_mem : ∀ {l : List Entry} {m : Entry}, zrangeHead l = some m → m ∈ l := by
  intro l
  induction l with
  | nil => intro m h; simp [zrangeHead] at h
  | cons e rest ih =>
    intro m h
    unfold zrangeHead at h
    split at h
    · obtain rfl := Option.some.inj h
      exact List.mem_cons_self _ _
    · rename_i m0 heq
      split at h
      · obtain rfl := Option.some.inj h
        exact List.mem_cons_of_mem _ (ih heq)
      · obtain rfl := Option.some.inj h
        exact List.mem_cons_self _ _

theorem mem_zadd_score {s : List Entry} {sc : Int} {mem : String} {e : Entry}
    (h : e ∈ zadd s sc mem) : e ∈ s ∨ e.score = sc := by
  unfold zadd at h
  split at h
  · obtain ⟨a, ha, hae⟩ := List.mem_map.mp h
    by_cases hm : (a.member == mem) = true
    · rw [if_pos hm] at hae
      right
      rw [← hae]
    · rw [if_neg hm] at hae
      left
      rw [← hae]
      exact ha
  · rcases List.mem_append.mp h with hl | hr
    · exact Or.inl hl
    · right
      rw [List.mem_singleton.mp hr]

theorem mem_zremrange {s : List Entry} {lo hi : Int} {e : Entry}
    (h : e ∈ zremrangebyscore s lo hi) : e ∈ s ∧ ¬(lo ≤ e.score ∧ e.score ≤ hi) := by
  unfold zremrangebyscore at h
  have h2 := List.mem_filter.mp h
  refine ⟨h2.1, ?_⟩
  have h3 : decide (lo ≤ e.score ∧ e.score ≤ hi) = false := by
    have := h2.2
    simp only [Bool.not_eq_true'] at this
    exact this
  exact of_decide_eq_false h3

theorem zremrange_eq_self {s : List Entry} {lo hi : Int}
    (h : ∀ e ∈ s, ¬(lo ≤ e.score ∧ e.score ≤ hi)) : zremrangebyscore s lo hi = s := by
  unfold zremrangebyscore
  apply List.filter_eq_self.mpr
  intro a ha
  simp only [Bool.not_eq_true', decide_eq_false_iff_not]
  exact h a ha

theorem isRule_truthy {v : JVal} (h : isRuleJV v = true) : v.truthy = true := by
  cases v with
  | vObj fs => rfl
  | vUndef => simp [isRuleJV] at h
  | vNum n => simp [isRuleJV] at h
  | vStr s => simp [isRuleJV] at h
  | vProto n => simp [isRuleJV] at h

theorem truthy_ne_undef {v : JVal} (h : v.truthy = true) : v ≠ .vUndef := by
  intro he
  rw [he] at h
  simp [JVal.truthy] at h

theorem lookupField_cases (fs : List (String × JVal)) (k : String) :
    lookupField fs k = .vUndef ∨ ∃ p ∈ fs, p.1 = k ∧ lookupField fs k = p.2 := by
  induction fs with
  | nil => exact Or.inl rfl
  | cons q rest ih =>
    obtain ⟨k2, v⟩ := q
    by_cases hk : k2 = k
    · right
      refine ⟨(k2, v), List.mem_cons_self _ _, hk, ?_⟩
      simp [lookupField, hk]
    · have hred : lookupField ((k2, v) :: rest) k = lookupField rest k := by
        simp [lookupField, hk]
      rcases ih with h | ⟨p, hp, hpk, hpv⟩
      · left; rw [hred, h]
      · right; exact ⟨p, List.mem_cons_of_mem _ hp, hpk, by rw [hred, hpv]⟩

theorem getField_own {fs : List (String × JVal)} {k : String}
    (h : lookupField fs k ≠ .vUndef) :
    (JVal.vObj fs).getField k = lookupField fs k := by
  show (match lookupField fs k with
    | JVal.vUndef => if protoNames.contains k then JVal.vProto k else JVal.vUndef
    | v => v) = lookupField fs k
  cases hv : lookupField fs k with
  | vUndef => exact absurd hv h
  | vNum n => rfl
  | vStr s => rfl
  | vObj fs2 => rfl
  | vProto n => rfl

theorem getField_miss {fs : List (String × JVal)} {k : String}
    (h1 : lookupField fs k = .vUndef) (h2 : protoNames.contains k = false) :
    (JVal.vObj fs).getField k = .vUndef := by
  show (match lookupField fs k with
    | JVal.vUndef => if protoNames.contains k then JVal.vProto k else JVal.vUndef
    | v => v) = JVal.vUndef
  rw [h1]
  have h3 : k ∉ protoNames := by simpa using h2
  simp [h3]

theorem groupChain_rule (gfs : List (String × JVal)) (action : String)
    (hall : ∀ p ∈ gfs, isRuleJV p.2 = true)
    (hact : protoNames.contains action = false) :
    isRuleJV
      (if ((JVal.vObj gfs).getField action).truthy then (JVal.vObj gfs).getField action
       else if ((JVal.vObj gfs).getField "default").truthy then
         (JVal.vObj gfs).getField "default"
       else rateLimitRules.getField "default") = true := by
  rcases lookupField_cases gfs action with h | ⟨p, hp, -, he⟩
  · rw [getField_miss h hact]
    rw [if_neg (by simp [JVal.truthy])]
    rcases lookupField_cases gfs "default" with h2 | ⟨q, hq, -, he2⟩
    · rw [getField_miss h2 (by decide), if_neg (by simp [JVal.truthy])]
      decide
    · have hq2 := hall q hq
      rw [getField_own (by rw [he2]; exact truthy_ne_undef (isRule_truthy hq2)), he2,
        if_pos (isRule_truthy hq2)]
      exact hq2
  · have hp2 := hall p hp
    rw [getField_own (by rw [he]; exact truthy_ne_undef (isRule_truthy hp2)), he,
      if_pos (isRule_truthy hp2)]
    exact hp2

theorem groupDefault_rule (gfs : List (String × JVal))
    (hall : ∀ p ∈ gfs, isRuleJV p.2 = true) :
    isRuleJV
      (if ((JVal.vObj gfs).getField "default").truthy then (JVal.vObj gfs).getField "default"
       else rateLimitRules.getField "default") = true := by
  rcases lookupField_cases gfs "default" with h | ⟨q, hq, -, he⟩
  · rw [getField_miss h (by decide), if_neg (by simp [JVal.truthy])]
    decide
  · have hq2 := hall q hq
    rw [getField_own (by rw [he]; exact truthy_ne_undef (isRule_truthy hq2)), he,
      if_pos (isRule_truthy hq2)]
    exact hq2

theorem actionChain_ne_undef (v : JVal) (action : String) :
    (if (v.getField action).truthy then v.getField action
     else if (v.getField "default").truthy then v.getField "default"
     else rateLimitRules.getField "default") ≠ .vUndef := by
  split
  · exact truthy_ne_undef (by assumption)
  split
  · exact truthy_ne_undef (by assumption)
  · exact fun h => JVal.noConfusion h

theorem defaultChain_ne_undef (v : JVal) :
    (if (v.getField "default").truthy then v.getField "default"
     else rateLimitRules.getField "default") ≠ .vUndef := by
  split
  · exact truthy_ne_undef (by assumption)
  · exact fun h => JVal.noConfusion h

theorem graphql_not_notifications {url : String}
    (hg : jsStartsWith url "/graphql" = true) :
    jsStartsWith url "/notifications/socket.io" = false := by
  unfold jsStartsWith at hg ⊢
  have e1 : "/graphql".toList = ['/', 'g', 'r', 'a', 'p', 'h', 'q', 'l'] := rfl
  have e2 : "/notifications/socket.io".toList =
      ['/', 'n', 'o', 't', 'i', 'f', 'i', 'c', 'a', 't', 'i', 'o', 'n', 's',
       '/', 's', 'o', 'c', 'k', 'e', 't', '.', 'i', 'o'] := rfl
  rw [e1] at hg
  rw [e2]
  cases hu : url.toList with
  | nil => rw [hu] at hg; simp [charsMatchAt] at hg
  | cons c1 t1 =>
    cases t1 with
    | nil => rw [hu] at hg; simp [charsMatchAt] at hg
    | cons c2 t2 =>
      rw [hu] at hg
      simp only [charsMatchAt, Bool.and_eq_true, beq_iff_eq] at hg
      obtain ⟨h1, h2, -⟩ := hg
      subst h1
      subst h2
      simp [charsMatchAt]

/-! ## Claim theorems -/

/-- Claim C1: the spec says a rejected request removes the just-inserted
member again, leaving the stored window set exactly as before the attempt.
The code instead calls `zrem` with a freshly built
`` `${now}-${Math.random()}` `` string, drawing a second random nonce, so
the inserted member stays behind.  At the failing input (login rule, five
live members, distinct nonces `"f"` and `"g"`), the evaluation rejects and
the final stored set is the old set with the inserted member
`"2000-f"` still appended — not the pre-attempt set. -/
theorem C1_rejection_rollback_misses_inserted_member :
    (rateLimitEval loginRule 2000 "f" "g"
        [⟨"1000-a", 1000⟩, ⟨"1000-b", 1000⟩, ⟨"1000-c", 1000⟩,
         ⟨"1000-d", 1000⟩, ⟨"1000-e", 1000⟩]).outcome =
      .reject429 ⟨false, "RATE_LIMIT_EXCEEDED", loginRule.message, 899⟩ ∧
    (rateLimitEval loginRule 2000 "f" "g"
        [⟨"1000-a", 1000⟩, ⟨"1000-b", 1000⟩, ⟨"1000-c", 1000⟩,
         ⟨"1000-d", 1000⟩, ⟨"1000-e", 1000⟩]).state =
      [⟨"1000-a", 1000⟩, ⟨"1000-b", 1000⟩, ⟨"1000-c", 1000⟩,
       ⟨"1000-d", 1000⟩, ⟨"1000-e", 1000⟩, ⟨"2000-f", 2000⟩] ∧
    (rateLimitEval loginRule 2000 "f" "g"
        [⟨"1000-a", 1000⟩, ⟨"1000-b", 1000⟩, ⟨"1000-c", 1000⟩,
         ⟨"1000-d", 1000⟩, ⟨"1000-e", 1000⟩]).state ≠
      [⟨"1000-a", 1000⟩, ⟨"1000-b", 1000⟩, ⟨"1000-c", 1000⟩,
       ⟨"1000-d", 1000⟩, ⟨"1000-e", 1000⟩] := by
  decide

/-- Claim C2: under the login rule `{windowMs: 900000, maxRequests: 5}`
(which is exactly what the rule table resolves for `/api/auth/login`),
six sequential requests from one identity within one window are evaluated
so that the first five call `next()` and the sixth is rejected with the
429 body and the `X-RateLimit-Remaining: 0` header. -/
theorem C2_login_sixth_request_rejected :
    getRateLimitRule "/api/auth/login" = ruleToJVal loginRule ∧
    (let r1 := rateLimitEval loginRule 1000 "n1" "n1" []
     let r2 := rateLimitEval loginRule 1001 "n2" "n2" r1.state
     let r3 := rateLimitEval loginRule 1002 "n3" "n3" r2.state
     let r4 := rateLimitEval loginRule 1003 "n4" "n4" r3.state
     let r5 := rateLimitEval loginRule 1004 "n5" "n5" r4.state
     let r6 := rateLimitEval loginRule 1005 "n6" "n6" r5.state
     r1.outcome = .callNext ∧ r2.outcome = .callNext ∧ r3.outcome = .callNext ∧
       r4.outcome = .callNext ∧ r5.outcome = .callNext ∧
       r6.outcome = .reject429 ⟨false, "RATE_LIMIT_EXCEEDED", loginRule.message, 900⟩ ∧
       r6.headers.remaining = some 0 ∧ r6.headers.limit = some 5) :=
  ⟨rfl, by decide⟩

/-- Claim C3: while the resolved breaker is Open, any non-upgrade request
hitting the circuit-breaker proxy wrapper is answered immediately with
status 503 and the structured fallback payload (`success: false`,
`error: "SERVICE_UNAVAILABLE"`, the service name and a timestamp), and the
wrapper never hands the request to the proxy, so no upstream network
attempt is made. -/
theorem C3_open_breaker_fast_fail (svc ts : String) :
    circuitBreakerGate true false false svc ts =
      .respond 503 (createFallbackResponse svc ts) ∧
    circuitBreakerGate true false false svc ts ≠ .forwardToProxy ∧
    (createFallbackResponse svc ts).success = false ∧
    (createFallbackResponse svc ts).error = "SERVICE_UNAVAILABLE" ∧
    (createFallbackResponse svc ts).service = svc ∧
    (createFallbackResponse svc ts).timestamp = ts :=
  ⟨rfl, fun h => ProxyStep.noConfusion h, rfl, rfl, rfl, rfl⟩

/-- Claim C4 counterexample: a request body containing the post-domain
operation `createPost` is not always forwarded to the post upstream.  The
routing sniffs raw substrings, so a `createPost` mutation whose
user-supplied content merely mentions the word "subscription" matches a
comment-domain keyword and is forwarded to the comment upstream. -/
theorem C4_graphql_routing_counterexample :
    jsIncludes
      "mutation { createPost(input: { content: my-newspaper-subscription-news }) { success } }"
      "createPost" = true ∧
    routeGraphQL false
      "mutation { createPost(input: { content: my-newspaper-subscription-news }) { success } }"
      "" = .commentHttp := by
  decide

/-- Claim C4 (amended): on the shared GraphQL path, a body containing any
comment-domain operation name is always forwarded to the comment upstream;
a body containing a post-domain operation name and no comment-domain
keyword (neither among the sniffed query markers nor, case-insensitively,
in the operation name) is forwarded to the post upstream; a
protocol-upgrade (WebSocket) request on that path is always forwarded to
the comment upstream, both in the route chain and in the server-level
upgrade listener. -/
theorem C4_graphql_routing_amended :
    (∀ q opName : String, commentOperations.any (fun op => jsIncludes q op) = true →
      routeGraphQL false q opName = .commentHttp) ∧
    (∀ q opName : String, postOperations.any (fun op => jsIncludes q op) = true →
      commentMarkers.any (fun m => jsIncludes q m) = false →
      jsIncludes (jsToLower opName) "comment" = false →
      routeGraphQL false q opName = .postHttp) ∧
    (∀ q opName : String, routeGraphQL true q opName = .commentWs) ∧
    (∀ url hdr : String, jsStartsWith url "/graphql" = true →
      jsToLower hdr = "websocket" → upgradeRoute url hdr = some .commentWs) := by
  refine ⟨?_, ?_, ?_, ?_⟩
  · intro q opName h
    obtain ⟨op, hop, hq⟩ := List.any_eq_true.mp h
    have hmem : op ∈ commentMarkers := by
      have hsub : ∀ x ∈ commentOperations, x ∈ commentMarkers := by decide
      exact hsub op hop
    have hb : graphqlIsCommentBound q opName = true := by
      unfold graphqlIsCommentBound
      rw [Bool.or_eq_true]
      exact Or.inl (List.any_eq_true.mpr ⟨op, hmem, hq⟩)
    simp [routeGraphQL, hb]
  · intro q opName hpost hmark hop
    have hb : graphqlIsCommentBound q opName = false := by
      unfold graphqlIsCommentBound
      rw [hmark, hop]
      rfl
    simp [routeGraphQL, hb]
  · intro q opName
    rfl
  · intro url hdr hg hh
    unfold upgradeRoute
    rw [if_neg (by rw [graphql_not_notifications hg]; exact fun h => Bool.noConfusion h)]
    rw [if_pos (by rw [hg, hh]; rfl)]

/-- Claim C4 witness: the amended routing theorem applied at concrete
inputs — a `getComments` body goes to the comment upstream, a plain
`createPost` body goes to the post upstream, and a WebSocket upgrade of
`/graphql` goes to the comment WS proxy. -/
theorem C4_graphql_routing_witness :
    routeGraphQL false "query { getComments(postId: 1) { comments { id } } }" "" =
      .commentHttp ∧
    routeGraphQL false "mutation { createPost(input: { content: hello }) { success } }" "" =
      .postHttp ∧
    upgradeRoute "/graphql" "WebSocket" = some .commentWs :=
  ⟨C4_graphql_routing_amended.1 _ _ (by decide),
   C4_graphql_routing_amended.2.1 _ _ (by decide) (by decide) (by decide),
   C4_graphql_routing_amended.2.2.2 _ _ (by decide) (by decide)⟩

/-- Claim C5: if any remote-store operation during rate-limit evaluation
throws — the pipelined round-trip, or the `zrange`/`zrem` of the rejection
branch — the `catch` block admits the request (`next()`), and no 429 or
error response is produced by the limiter: the store failure is never
surfaced to the client. -/
theorem C5_store_failure_fails_open (rule : RateLimitRule) (now : Int)
    (n1 n2 : String) (s : List Entry) (f : Option StoreFail)
    (h : f.isSome = true) :
    (rateLimiterHandle rule now n1 n2 s f).1 = .callNext ∧
    ∀ b, (rateLimiterHandle rule now n1 n2 s f).1 ≠ .reject429 b := by
  have hmain : (rateLimiterHandle rule now n1 n2 s f).1 = .callNext := by
    cases f with
    | none => simp at h
    | some sf =>
      cases sf with
      | atPipeline => rfl
      | atZrange =>
        unfold rateLimiterHandle
        cases ho : (rateLimitEval rule now n1 n2 s).outcome with
        | callNext => simp [ho]
        | reject429 b => simp [ho]
      | atZrem =>
        unfold rateLimiterHandle
        cases ho : (rateLimitEval rule now n1 n2 s).outcome with
        | callNext => simp [ho]
        | reject429 b => simp [ho]
  exact ⟨hmain, fun b hb => by rw [hmain] at hb; exact RLOutcome.noConfusion hb⟩

/-- Claim C5 witness: the fail-open theorem applied at a concrete store
failure during the pipelined round-trip. -/
theorem C5_store_failure_fails_open_witness :
    (some StoreFail.atPipeline : Option StoreFail).isSome = true ∧
    (rateLimiterHandle loginRule 1000 "a" "b" [] (some .atPipeline)).1 = .callNext :=
  ⟨by decide, (C5_store_failure_fails_open loginRule 1000 "a" "b" [] _ (by decide)).1⟩

/-- Claim C6 counterexample: when the store fails during evaluation, the
request still passes through the rate limiter (fail-open admission) but
the response carries none of the `X-RateLimit-*` headers, so not every
response produced by a request that passed through the limiter carries
them. -/
theorem C6_headers_counterexample :
    (rateLimiterHandle loginRule 1000 "a" "b" [] (some .atPipeline)).1 = .callNext ∧
    (rateLimiterHandle loginRule 1000 "a" "b" [] (some .atPipeline)).2 = emptyHeaders := by
  decide

/-- Claim C6 (amended): whenever rate-limit evaluation completes without a
store error, the response carries `X-RateLimit-Limit` (the rule's maximum),
`X-RateLimit-Remaining`, and `X-RateLimit-Reset` (the window end
`now + windowMs`), and every rejected (429) response additionally carries
`Retry-After`; when the store fails, the limiter fails open with no
rate-limit header: a failure of the pipelined round-trip does so for every
request, and a failure of the rejection branch's `zrange`/`zrem` does so
for every request the evaluation would have rejected. -/
theorem C6_headers_amended (rule : RateLimitRule) (now : Int) (n1 n2 : String)
    (s : List Entry) :
    (rateLimitEval rule now n1 n2 s).headers.limit = some rule.maxRequests ∧
    (rateLimitEval rule now n1 n2 s).headers.remaining.isSome = true ∧
    (rateLimitEval rule now n1 n2 s).headers.reset = some (now + rule.windowMs) ∧
    (∀ b, (rateLimitEval rule now n1 n2 s).outcome = .reject429 b →
      (rateLimitEval rule now n1 n2 s).headers.retryAfter = some b.retryAfter) ∧
    rateLimiterHandle rule now n1 n2 s (some .atPipeline) = (.callNext, emptyHeaders) ∧
    (∀ f : Option StoreFail, f.isSome = true →
      ∀ b, (rateLimitEval rule now n1 n2 s).outcome = .reject429 b →
      rateLimiterHandle rule now n1 n2 s f = (.callNext, emptyHeaders)) := by
  have h5 : rateLimiterHandle rule now n1 n2 s (some .atPipeline) =
      (.callNext, emptyHeaders) := rfl
  have h6 : ∀ f : Option StoreFail, f.isSome = true →
      ∀ b, (rateLimitEval rule now n1 n2 s).outcome = .reject429 b →
      rateLimiterHandle rule now n1 n2 s f = (.callNext, emptyHeaders) := by
    intro f hf b hb
    cases f with
    | none => simp at hf
    | some sf =>
      cases sf with
      | atPipeline => rfl
      | atZrange =>
        simp only [rateLimiterHandle]
        rw [hb]
        exact rfl
      | atZrem =>
        simp only [rateLimiterHandle]
        rw [hb]
        exact rfl
  have h14 : (rateLimitEval rule now n1 n2 s).headers.limit = some rule.maxRequests ∧
      (rateLimitEval rule now n1 n2 s).headers.remaining.isSome = true ∧
      (rateLimitEval rule now n1 n2 s).headers.reset = some (now + rule.windowMs) ∧
      (∀ b, (rateLimitEval rule now n1 n2 s).outcome = .reject429 b →
        (rateLimitEval rule now n1 n2 s).headers.retryAfter = some b.retryAfter) := by
    by_cases hc : (zremrangebyscore s 0 (now - rule.windowMs)).length ≥ rule.maxRequests
    · simp only [rateLimitEval, if_pos hc]
      refine ⟨trivial, rfl, trivial, ?_⟩
      intro b hb
      obtain rfl := RLOutcome.reject429.inj hb
      rfl
    · simp only [rateLimitEval, if_neg hc]
      refine ⟨trivial, rfl, trivial, ?_⟩
      intro b hb
      exact absurd hb (fun h => RLOutcome.noConfusion h)
  exact ⟨h14.1, h14.2.1, h14.2.2.1, h14.2.2.2, h5, h6⟩

/-- Claim C6 witness: the amended header theorem applied at a concrete
rejected evaluation — the 429 response carries `Retry-After: 900`
(`ceil((1500 + 900000 - 2000)/1000)`) and the limit header, and the same
request with a store failure at the rejection branch's `zrange` fails open
with no headers. -/
theorem C6_headers_witness :
    (rateLimitEval loginRule 2000 "f" "g"
        [⟨"1500-a", 1500⟩, ⟨"1500-b", 1500⟩, ⟨"1500-c", 1500⟩,
         ⟨"1500-d", 1500⟩, ⟨"1500-e", 1500⟩]).headers.retryAfter = some 900 ∧
    (rateLimitEval loginRule 2000 "f" "g"
        [⟨"1500-a", 1500⟩, ⟨"1500-b", 1500⟩, ⟨"1500-c", 1500⟩,
         ⟨"1500-d", 1500⟩, ⟨"1500-e", 1500⟩]).headers.limit = some 5 ∧
    rateLimiterHandle loginRule 2000 "f" "g"
        [⟨"1500-a", 1500⟩, ⟨"1500-b", 1500⟩, ⟨"1500-c", 1500⟩,
         ⟨"1500-d", 1500⟩, ⟨"1500-e", 1500⟩] (some .atZrange) =
      (.callNext, emptyHeaders) :=
  ⟨(C6_headers_amended loginRule 2000 "f" "g"
      [⟨"1500-a", 1500⟩, ⟨"1500-b", 1500⟩, ⟨"1500-c", 1500⟩,
       ⟨"1500-d", 1500⟩, ⟨"1500-e", 1500⟩]).2.2.2.1
      ⟨false, "RATE_LIMIT_EXCEEDED", loginRule.message, 900⟩ (by decide),
   (C6_headers_amended loginRule 2000 "f" "g"
      [⟨"1500-a", 1500⟩, ⟨"1500-b", 1500⟩, ⟨"1500-c", 1500⟩,
       ⟨"1500-d", 1500⟩, ⟨"1500-e", 1500⟩]).1,
   (C6_headers_amended loginRule 2000 "f" "g"
      [⟨"1500-a", 1500⟩, ⟨"1500-b", 1500⟩, ⟨"1500-c", 1500⟩,
       ⟨"1500-d", 1500⟩, ⟨"1500-e", 1500⟩]).2.2.2.2.2 (some .atZrange) (by decide)
      ⟨false, "RATE_LIMIT_EXCEEDED", loginRule.message, 900⟩ (by decide)⟩

/-- Claim C7 counterexample: the status operation does mutate stored
rate-limit state.  With one expired member in the stored set, the call
prunes it (`zremrangebyscore`), so the stored window set differs before
and after the call. -/
theorem C7_status_counterexample :
    (getRateLimitStatusEval
        ⟨900000, 100, "Quá nhiều requests. Vui lòng thử lại sau."⟩
        1000000 [⟨"5-a", 5⟩]).2 = [] ∧
    ([⟨"5-a", 5⟩] : List Entry) ≠ [] := by
  decide

/-- Claim C7 (amended): the status operation computes utilization on the
pruned set: it removes exactly the expired members (score in
`[0, now - windowMs]`), never adds a member, leaves the set unchanged
whenever no member is expired, and reports `limit = maxRequests` and
`current` equal to the pruned count. -/
theorem C7_status_amended (rule : RateLimitRule) (now : Int) (s : List Entry) :
    (∀ e ∈ (getRateLimitStatusEval rule now s).2, e ∈ s) ∧
    (∀ e ∈ s, (0 ≤ e.score ∧ e.score ≤ now - rule.windowMs) →
      e ∉ (getRateLimitStatusEval rule now s).2) ∧
    (∀ e ∈ s, ¬(0 ≤ e.score ∧ e.score ≤ now - rule.windowMs) →
      e ∈ (getRateLimitStatusEval rule now s).2) ∧
    ((∃ e ∈ s, 0 ≤ e.score ∧ e.score ≤ now - rule.windowMs) →
      (getRateLimitStatusEval rule now s).2 ≠ s) ∧
    ((∀ e ∈ s, ¬(0 ≤ e.score ∧ e.score ≤ now - rule.windowMs)) →
      (getRateLimitStatusEval rule now s).2 = s) ∧
    (getRateLimitStatusEval rule now s).1.current =
      (getRateLimitStatusEval rule now s).2.length ∧
    (getRateLimitStatusEval rule now s).1.limit = rule.maxRequests := by
  have hdrop : ∀ e ∈ s, (0 ≤ e.score ∧ e.score ≤ now - rule.windowMs) →
      e ∉ (getRateLimitStatusEval rule now s).2 := by
    intro e he hexp hmem
    exact (mem_zremrange hmem).2 hexp
  refine ⟨?_, hdrop, ?_, ?_, ?_, rfl, rfl⟩
  · intro e he
    exact (mem_zremrange he).1
  · intro e he hok
    refine List.mem_filter.mpr ⟨he, ?_⟩
    simp only [Bool.not_eq_true', decide_eq_false_iff_not]
    exact hok
  · rintro ⟨e, he, hexp⟩ heq
    have hmem : e ∈ (getRateLimitStatusEval rule now s).2 := by
      rw [heq]
      exact he
    exact hdrop e he hexp hmem
  · intro h
    exact zremrange_eq_self h

/-- Claim C7 witness: the amended status theorem applied at two concrete
sets — a fresh set is left unchanged, and a set holding one expired
member is mutated by the call. -/
theorem C7_status_witness :
    (getRateLimitStatusEval loginRule 1000 [⟨"100-a", 100⟩]).2 = [⟨"100-a", 100⟩] ∧
    (getRateLimitStatusEval loginRule 1000000 [⟨"5-a", 5⟩]).2 ≠ [⟨"5-a", 5⟩] :=
  ⟨(C7_status_amended loginRule 1000 [⟨"100-a", 100⟩]).2.2.2.2.1 (by decide),
   (C7_status_amended loginRule 1000000 [⟨"5-a", 5⟩]).2.2.2.1
     ⟨⟨"5-a", 5⟩, by decide, by decide⟩⟩

/-- Claim C8: deleting the `(identity, path)` key and immediately
re-evaluating a request for the same identity and path admits it with the
full quota restored: the evaluation observes an empty window (the final
stored set is exactly the one freshly inserted member) and reports
`X-RateLimit-Remaining = maxRequests - 1`. -/
theorem C8_reset_restores_quota (st : RLStore) (ip path : String)
    (rule : RateLimitRule) (now : Int) (n1 n2 : String)
    (h : 1 ≤ rule.maxRequests) :
    (rateLimitEvalAt (resetRateLimitSpecific st ip path) ip path rule now n1 n2).outcome =
      .callNext ∧
    (rateLimitEvalAt (resetRateLimitSpecific st ip path) ip path rule now n1 n2).headers.remaining =
      some ((rule.maxRequests : Int) - 1) ∧
    (rateLimitEvalAt (resetRateLimitSpecific st ip path) ip path rule now n1 n2).state =
      [⟨memberString now n1, now⟩] := by
  have hkey : resetRateLimitSpecific st ip path (rlKey ip path) = [] := by
    unfold resetRateLimitSpecific
    rw [if_pos rfl]
  unfold rateLimitEvalAt
  rw [hkey]
  have hcond : ¬((zremrangebyscore [] 0 (now - rule.windowMs)).length ≥ rule.maxRequests) := by
    simp only [zremrangebyscore, List.filter_nil, List.length_nil]
    omega
  simp only [rateLimitEval, if_neg hcond]
  refine ⟨trivial, ?_, ?_⟩
  · simp only [zremrangebyscore, List.filter_nil, List.length_nil, Nat.cast_zero]
    have hmax : (0 : Int) ⊔ ((rule.maxRequests : Int) - 0 - 1) = (rule.maxRequests : Int) - 1 := by
      rw [sup_eq_right.mpr (by omega)]
      ring
    rw [hmax]
  · simp [zremrangebyscore, zadd]

/-- Claim C8 witness: the reset-then-evaluate theorem applied at a concrete
store holding an exhausted login window — after the reset the next request
is admitted with `Remaining = 4`. -/
theorem C8_reset_restores_quota_witness :
    1 ≤ loginRule.maxRequests ∧
    (rateLimitEvalAt
        (resetRateLimitSpecific (fun _ => [⟨"1000-x", 1000⟩]) "1.2.3.4" "/api/auth/login")
        "1.2.3.4" "/api/auth/login" loginRule 2000 "a" "b").outcome = .callNext ∧
    (rateLimitEvalAt
        (resetRateLimitSpecific (fun _ => [⟨"1000-x", 1000⟩]) "1.2.3.4" "/api/auth/login")
        "1.2.3.4" "/api/auth/login" loginRule 2000 "a" "b").headers.remaining = some 4 :=
  ⟨by decide,
   (C8_reset_restores_quota (fun _ => [⟨"1000-x", 1000⟩]) "1.2.3.4" "/api/auth/login"
      loginRule 2000 "a" "b" (by decide)).1,
   (C8_reset_restores_quota (fun _ => [⟨"1000-x", 1000⟩]) "1.2.3.4" "/api/auth/login"
      loginRule 2000 "a" "b" (by decide)).2.1⟩

/-- Claim C9: for a positive window, every 429 rejection carries
`Retry-After ≥ 1`: the oldest member surviving the prune has a score
strictly inside the window (scores are timestamps, hence nonnegative), so
`ceil((oldest + windowMs - now)/1000) ≥ 1`, and the fallback
`ceil(windowMs/1000)` is `≥ 1` as well. -/
theorem C9_retry_after_positive (rule : RateLimitRule) (now : Int) (n1 n2 : String)
    (s : List Entry) (hw : 1 ≤ rule.windowMs) (hs : ∀ e ∈ s, 0 ≤ e.score) :
    ∀ b, (rateLimitEval rule now n1 n2 s).outcome = .reject429 b →
      1 ≤ b.retryAfter ∧
      (rateLimitEval rule now n1 n2 s).headers.retryAfter = some b.retryAfter := by
  intro b hb
  by_cases hc : (zremrangebyscore s 0 (now - rule.windowMs)).length ≥ rule.maxRequests
  case neg =>
    simp only [rateLimitEval, if_neg hc] at hb
    exact absurd hb (fun h => RLOutcome.noConfusion h)
  case pos =>
    have hra : 1 ≤ (match zrangeHead (zadd (zremrangebyscore s 0 (now - rule.windowMs))
          now (memberString now n1)) with
        | some oldest => jsCeilDiv (oldest.score + rule.windowMs - now) 1000
        | none => jsCeilDiv rule.windowMs 1000) := by
      cases hz : zrangeHead (zadd (zremrangebyscore s 0 (now - rule.windowMs))
          now (memberString now n1)) with
      | none => exact jsCeilDiv_pos rule.windowMs 1000 hw (by norm_num)
      | some o =>
        have ho := zrangeHead_mem hz
        rcases mem_zadd_score ho with hmem | hsc
        · obtain ⟨hmem_s, hnot⟩ := mem_zremrange hmem
          have h0 : 0 ≤ o.score := hs o hmem_s
          have hgt : now - rule.windowMs < o.score := by
            by_contra hle
            push_neg at hle
            exact hnot ⟨h0, hle⟩
          exact jsCeilDiv_pos _ _ (by omega) (by norm_num)
        · have hval : o.score + rule.windowMs - now = rule.windowMs := by
            rw [hsc]; ring
          show 1 ≤ jsCeilDiv (o.score + rule.windowMs - now) 1000
          rw [hval]
          exact jsCeilDiv_pos _ _ hw (by norm_num)
    simp only [rateLimitEval, if_pos hc] at hb ⊢
    obtain rfl := RLOutcome.reject429.inj hb
    exact ⟨hra, rfl⟩

/-- Claim C9 witness: the positivity theorem applied at a concrete
rejection — the login window holds five live members and the sixth request
gets `Retry-After = 900 ≥ 1`. -/
theorem C9_retry_after_positive_witness :
    (1 : Int) ≤ loginRule.windowMs ∧
    1 ≤ (RejectBody.mk false "RATE_LIMIT_EXCEEDED" loginRule.message 900).retryAfter :=
  ⟨by decide,
   (C9_retry_after_positive loginRule 2000 "f" "g"
      [⟨"1500-a", 1500⟩, ⟨"1500-b", 1500⟩, ⟨"1500-c", 1500⟩,
       ⟨"1500-d", 1500⟩, ⟨"1500-e", 1500⟩]
      (by decide) (by decide)
      ⟨false, "RATE_LIMIT_EXCEEDED", loginRule.message, 900⟩ (by decide)).1⟩

/-! ## Rule-lookup lemmas for the rule table -/

theorem ruleParts_full (a b : String) (rest : List String) (hb : b ≠ "default")
    (hbp : protoNames.contains b = false)
    (hact : ∀ act, rest.get? 0 = some act → protoNames.contains act = false) :
    isRuleJV (getRateLimitRuleParts (a :: b :: rest)) = true := by
  simp only [getRateLimitRuleParts, List.getD_cons_succ, List.getD_cons_zero,
    List.get?_cons_succ, List.length_cons]
  rw [if_neg (by omega)]
  rcases lookupField_cases rateLimitRulesFields b with h | ⟨p, hp, hpk, he⟩
  · rw [show rateLimitRules.getField b = JVal.vUndef from getField_miss h hbp]
    rw [if_pos (by rfl)]
    decide
  · simp only [rateLimitRulesFields, List.mem_cons, List.not_mem_nil, or_false] at hp
    rcases hp with rfl | rfl | rfl | rfl | rfl
    · exact absurd hpk hb.symm
    all_goals {
      rw [show rateLimitRules.getField b = _ from
        (getField_own (by rw [he]; exact fun hcon => JVal.noConfusion hcon)).trans he]
      rw [if_neg (fun hcon => Bool.noConfusion hcon)]
      cases rest with
      | nil => exact groupDefault_rule _ (by decide)
      | cons r rtail => exact groupChain_rule _ r (by decide) (hact r rfl)
    }

theorem ruleParts_defined (parts : List String) :
    getRateLimitRuleParts parts ≠ .vUndef := by
  simp only [getRateLimitRuleParts]
  split
  · exact fun h => JVal.noConfusion h
  · split
    · exact fun h => JVal.noConfusion h
    · cases hp : parts.get? 2 with
      | some action => exact actionChain_ne_undef _ action
      | none => exact defaultChain_ne_undef _

theorem ruleParts_tail_only (x y s : String) (rest : List String) :
    getRateLimitRuleParts (x :: s :: rest) = getRateLimitRuleParts (y :: s :: rest) := by
  simp [getRateLimitRuleParts]

theorem ruleParts_canonical (x s : String) (rest : List String) :
    getRateLimitRuleParts (x :: s :: rest) =
      (if (rateLimitRules.getField s).truthy = false then rateLimitRules.getField "default"
       else
        match rest.get? 0 with
        | some action =>
          if ((rateLimitRules.getField s).getField action).truthy then
            (rateLimitRules.getField s).getField action
          else if ((rateLimitRules.getField s).getField "default").truthy then
            (rateLimitRules.getField s).getField "default"
          else rateLimitRules.getField "default"
        | none =>
          if ((rateLimitRules.getField s).getField "default").truthy then
            (rateLimitRules.getField s).getField "default"
          else rateLimitRules.getField "default") := by
  simp only [getRateLimitRuleParts, List.getD_cons_succ, List.getD_cons_zero,
    List.get?_cons_succ, List.length_cons]
  rw [if_neg (by omega)]
  simp only [Bool.not_eq_true']

theorem ruleParts_third_only (x s a : String) (r1 r2 : List String) :
    getRateLimitRuleParts (x :: s :: a :: r1) = getRateLimitRuleParts (x :: s :: a :: r2) := by
  rw [ruleParts_canonical, ruleParts_canonical]
  simp only [List.get?_cons_zero]

/-- Claim C10 counterexample: the lookup does not always return a rule
object.  For the path `/api/default/windowMs` the second segment selects
the top-level `default` rule itself as the "service rules" object and the
third segment selects its truthy `windowMs` field, so the raw number
`900000` is returned instead of a rule. -/
theorem C10_rule_lookup_counterexample :
    getRateLimitRule "/api/default/windowMs" = JVal.vNum 900000 ∧
    isRuleJV (getRateLimitRule "/api/default/windowMs") = false :=
  ⟨rfl, by decide⟩

/-- Claim C10 (amended): the rule lookup is total (never throws, never
returns `undefined`); it returns a full rule — an object with `windowMs`,
`maxRequests` and `message` — for every path whose second filtered segment
is neither the literal key `default` nor an `Object.prototype` member
name and whose third segment (when present) is not an `Object.prototype`
member name — otherwise a raw field value (e.g. `/api/default/windowMs`
yields `900000`) or an inherited built-in (e.g. `/api/auth/toString`
yields the inherited `toString` function) can be returned instead;
resolution depends only on the second and third slash-separated segments
(so `/anything/auth/login` resolves like `/api/auth/login`), and any path
with fewer than two segments receives the global default rule. -/
theorem C10_rule_lookup_amended :
    (∀ a b : String, ∀ rest : List String, b ≠ "default" →
      protoNames.contains b = false →
      (∀ act, rest.get? 0 = some act → protoNames.contains act = false) →
      isRuleJV (getRateLimitRuleParts (a :: b :: rest)) = true) ∧
    (∀ parts : List String, getRateLimitRuleParts parts ≠ .vUndef) ∧
    (getRateLimitRule "/api/auth/toString" = JVal.vProto "toString" ∧
      isRuleJV (getRateLimitRule "/api/auth/toString") = false) ∧
    (∀ x y s : String, ∀ rest : List String,
      getRateLimitRuleParts (x :: s :: rest) = getRateLimitRuleParts (y :: s :: rest)) ∧
    (∀ x s a : String, ∀ r1 r2 : List String,
      getRateLimitRuleParts (x :: s :: a :: r1) = getRateLimitRuleParts (x :: s :: a :: r2)) ∧
    getRateLimitRule "/anything/auth/login" = getRateLimitRule "/api/auth/login" ∧
    (∀ parts : List String, parts.length < 2 →
      getRateLimitRuleParts parts = rateLimitRules.getField "default") := by
  refine ⟨ruleParts_full, ruleParts_defined, ⟨rfl, by decide⟩,
    ruleParts_tail_only, ruleParts_third_only, rfl, ?_⟩
  intro parts h
  simp only [getRateLimitRuleParts, if_pos h]

/-- Claim C10 witness: the amended lookup theorem applied at the concrete
login path — `["api", "auth", "login"]` has a second segment that is
neither `default` nor a prototype member and a third segment that is not a
prototype member, so it resolves to a full rule. -/
theorem C10_rule_lookup_witness :
    ("auth" : String) ≠ "default" ∧
    protoNames.contains "auth" = false ∧
    protoNames.contains "login" = false ∧
    isRuleJV (getRateLimitRuleParts ["api", "auth", "login"]) = true :=
  ⟨by decide, by decide, by decide,
   C10_rule_lookup_amended.1 "api" "auth" ["login"] (by decide) (by decide)
     (by
      intro act hact
      obtain rfl : "login" = act := Option.some.inj hact
      decide)⟩
